import Mathlib

/-!
Shallow embedding of the in-process TTL response cache of the eikaiwa backend
(src/backend/main.py and src/backend/config.py).

The cache is the module-level dict `response_cache` mapping a string key to a
pair `(value, inserted_at_timestamp)`, with `CACHE_TTL = 300` seconds.  The
read path of each endpoint checks `time.time() - timestamp < CACHE_TTL` and
returns the stored value on a fresh hit without mutating the dict.  The TTS
endpoint stores error fallbacks with a backdated timestamp
`time.time() - CACHE_TTL + 30`, which gives them an effective 30-second
freshness window.  `optimize_cache_cleanup` collects and deletes every entry
whose age is strictly greater than `CACHE_TTL` and prints the removed count;
`periodic_cache_cleanup` loops forever calling the sweep with no exception
handling around it.

Wall-clock instants (values of Python's `time.time()`) are modelled as exact
integers: every use of a timestamp in the source is an order comparison of a
difference of two instants against the constants 300 and 30, so integer
instants capture the logic exactly, idealizing float arithmetic by exact
arithmetic.
-/

namespace Eikaiwa

/-- CACHE_TTL = 300, the success cache lifetime in seconds
(src/backend/main.py line 54, src/backend/config.py line 55). -/
def CACHE_TTL : ℤ := 300

/-- The module-level dict `response_cache`, modelled as an association list of
(key, value, inserted-at) entries.  A Python dict has at most one entry per
key; theorems that depend on that invariant carry a `Nodup` hypothesis on the
key list. -/
abbrev Cache (α : Type) : Type := List (String × α × ℤ)

/-- Python `key in response_cache` followed by `response_cache[key]`: the
stored (value, timestamp) pair for `key`, if present. -/
def lookupEntry {α : Type} (c : Cache α) (k : String) : Option (α × ℤ) :=
  (c.find? (fun e => decide (e.1 = k))).map (fun e => e.2)

/-- Python `response_cache[key] = (value, timestamp)`: dict assignment
overwrites an existing entry in place and appends a new key at the end. -/
def putEntry {α : Type} (c : Cache α) (k : String) (v : α) (ts : ℤ) : Cache α :=
  if c.any (fun e => decide (e.1 = k)) then
    c.map (fun e => if e.1 = k then (k, v, ts) else e)
  else
    c ++ [(k, v, ts)]

/-- Python `del response_cache[key]`. -/
def delKey {α : Type} (c : Cache α) (k : String) : Cache α :=
  c.filter (fun e => decide (e.1 ≠ k))

/-- The cache-check block shared by the endpoints (src/backend/main.py lines
247-251 and 423-427): if the key is present and `now - timestamp < CACHE_TTL`
the stored value is returned; a stale or absent entry yields `none` and the
handler falls through to the compute path.  The read path contains no delete
statement, so the cache is returned unchanged alongside the result. -/
def cache_lookup_step {α : Type} (c : Cache α) (k : String) (now : ℤ) :
    Option α × Cache α :=
  match lookupEntry c k with
  | some (v, ts) => (if now - ts < CACHE_TTL then some v else none, c)
  | none => (none, c)

/-- Entry test of the sweep (src/backend/config.py line 71, main.py line 830):
`current_time - timestamp > CACHE_TTL`. -/
def isExpired {α : Type} (now : ℤ) (e : String × α × ℤ) : Bool :=
  decide (now - e.2.2 > CACHE_TTL)

/-- `optimize_cache_cleanup` (src/backend/config.py lines 61-77, main.py lines
820-836): collects every key whose entry's age is strictly greater than
`CACHE_TTL`, deletes each collected key, and prints the removed count.
The result records, in order: the cache after the deletions, the count that
appears in the printed cleanup message, and the Python return value of the
function (`none`, standing for Python's `None`: the function body has no
return statement). -/
def optimize_cache_cleanup {α : Type} (c : Cache α) (now : ℤ) :
    Cache α × Nat × Option Nat :=
  let expired_keys := (c.filter (isExpired now)).map (fun e => e.1)
  (expired_keys.foldl delKey c, expired_keys.length, none)

/-- Result of one invocation of the sweep inside the reaper loop: either it
completed normally (removing some number of entries) or it raised an
exception (for example `RuntimeError: dictionary changed size during
iteration`, when a request handler mutates the dict mid-scan). -/
inductive SweepOutcome : Type
  | ok (removed : Nat)
  | raised (msg : String)
deriving DecidableEq, Repr

/-- Survival of the `periodic_cache_cleanup` loop (src/backend/config.py lines
80-86, main.py lines 844-848) over a finite trace of sweep outcomes.  The
loop body is `time.sleep(300); optimize_cache_cleanup()` with no try/except,
so a normally completing sweep is followed by the next iteration, while a
raised exception propagates out of the loop and terminates the (daemon)
reaper thread.  The value is `true` when the loop is still running after
consuming the trace. -/
def periodic_cache_cleanup_alive : List SweepOutcome → Bool
  | [] => true
  | SweepOutcome.ok _ :: rest => periodic_cache_cleanup_alive rest
  | SweepOutcome.raised _ :: _ => false

/-- Range of CPython's built-in `hash` on a 64-bit platform: a machine word.
The source derives cache keys from `hash(text)` (main.py lines 246 and
418-420); the hash function itself is opaque, so definitions are
parameterized by an arbitrary function into this finite range. -/
abbrev HASH_RANGE : ℕ := 2 ^ 64

/-- An arbitrary realization of Python's built-in string hash. -/
abbrev PyHash : Type := String → Fin HASH_RANGE

/-- The `/api/tts` request body (src/backend/main.py lines 108-121).
`speaking_rate` is a float in Python, modelled as a rational. -/
structure TTSRequest where
  text : String
  voice_name : String
  language_code : String
  speaking_rate : ℚ
deriving DecidableEq, Repr

/-- TTS cache key (src/backend/main.py line 246):
`f"tts_{hash(request.text)}_{request.voice_name}_{request.speaking_rate}"`. -/
def tts_cache_key (h : PyHash) (req : TTSRequest) : String :=
  "tts_" ++ toString (h req.text).val ++ "_" ++ req.voice_name ++ "_"
    ++ toString req.speaking_rate

/-- The dict payload cached and returned by the TTS endpoint.  The three dict
shapes of the source (success result, browser-TTS fallback, error fallback)
are merged into one structure; keys absent from a given Python dict are
modelled by the neutral values `""`, `0`, `false`, `none`. -/
structure TTSPayload where
  audio_data : String
  content_type : String
  original_size : Nat
  fallback_text : String
  use_browser_tts : Bool
  error : Option String
deriving DecidableEq, Repr

/-- Success payload of `/api/tts` (main.py lines 325-333). -/
def successPayload (data mime : String) : TTSPayload :=
  ⟨data, mime, data.length, "", false, none⟩

/-- No-audio fallback payload of `/api/tts` (main.py lines 340-345). -/
def browserFallbackPayload (text : String) : TTSPayload :=
  ⟨"", "text/plain", 0, text, true, none⟩

/-- Exception fallback payload of `/api/tts` (main.py lines 356-362). -/
def errorPayload (text msg : String) : TTSPayload :=
  ⟨"", "text/plain", 0, text, true, some msg⟩

/-- Outcome of the wrapped TTS compute call (the `generate_content` call plus
response parsing, main.py lines 266-323): inline audio found, completion
without audio data, or a raised exception. -/
inductive TTSOutcome : Type
  | audio (data mime : String)
  | noAudio
  | raised (msg : String)
deriving DecidableEq, Repr

/-- Cache logic of the `/api/tts` handler `text_to_speech` (src/backend/main.py
lines 233-368).  Returns the response payload, the cache after the call, and
whether the wrapped compute call was invoked.  On a fresh cache hit the stored
payload is returned and the compute call is skipped (lines 247-251).  On a
miss: a successful compute stores its result at the current time (line 335), a
no-audio completion stores the browser fallback at the current time (line
347), and a raised exception is caught and its fallback is stored with the
backdated timestamp `now - CACHE_TTL + 30` (lines 363-367). -/
def text_to_speech (h : PyHash) (c : Cache TTSPayload) (req : TTSRequest)
    (now : ℤ) (outcome : TTSOutcome) : TTSPayload × Cache TTSPayload × Bool :=
  match (cache_lookup_step c (tts_cache_key h req) now).1 with
  | some v => (v, c, false)
  | none =>
    match outcome with
    | TTSOutcome.audio data mime =>
        (successPayload data mime,
          putEntry c (tts_cache_key h req) (successPayload data mime) now, true)
    | TTSOutcome.noAudio =>
        (browserFallbackPayload req.text,
          putEntry c (tts_cache_key h req) (browserFallbackPayload req.text) now, true)
    | TTSOutcome.raised msg =>
        (errorPayload req.text msg,
          putEntry c (tts_cache_key h req) (errorPayload req.text msg)
            (now - CACHE_TTL + 30), true)

/-- Outcome of the wrapped Gemini text generation call in `/api/respond`:
the `response.text` value, or a raised exception. -/
inductive GenOutcome : Type
  | text (s : String)
  | raised (msg : String)
deriving DecidableEq, Repr

/-- Conversation cache key (src/backend/main.py lines 418-420):
`f"response_{hash(req.text)}_{hash(str(req.conversation_history))}"`.
`historyStr` is `str(req.conversation_history)`. -/
def respond_cache_key (h : PyHash) (text historyStr : String) : String :=
  "response_" ++ toString (h text).val ++ "_" ++ toString (h historyStr).val

/-- Fixed apology reply of `/api/respond` when the model produced an empty
text (src/backend/main.py lines 443-445). -/
def FALLBACK_EMPTY_REPLY : String :=
  "Sorry, I couldn\x27t generate a response. Please try again."

/-- Fixed apology reply of `/api/respond` when the wrapped call raised
(src/backend/main.py lines 450-452). -/
def FALLBACK_ERROR_REPLY : String :=
  "Sorry, there was an error processing your request. Please try again."

/-- Cache logic of the `/api/respond` handler `respond` (src/backend/main.py
lines 404-452).  Returns the reply, the cache after the call, and whether the
wrapped compute call was invoked.  On a fresh hit the cached reply is
returned (lines 423-427).  On a miss, a nonempty generated text is stored at
the current time and returned (lines 438-441); an empty text or a raised
exception yields a fixed apology reply and stores nothing (lines 442-452). -/
def respond (h : PyHash) (c : Cache String) (text historyStr : String)
    (now : ℤ) (outcome : GenOutcome) : String × Cache String × Bool :=
  match (cache_lookup_step c (respond_cache_key h text historyStr) now).1 with
  | some v => (v, c, false)
  | none =>
    match outcome with
    | GenOutcome.text s =>
        if s = "" then
          (FALLBACK_EMPTY_REPLY, c, true)
        else
          (s, putEntry c (respond_cache_key h text historyStr) s now, true)
    | GenOutcome.raised _ =>
        (FALLBACK_ERROR_REPLY, c, true)

/-! Helper lemmas about the cache operations. -/

/-- A dict overwrite is found by a subsequent lookup: map case of `putEntry`. -/
theorem find?_map_overwrite {α : Type} (c : Cache α) (k : String) (v : α) (ts : ℤ)
    (hany : c.any (fun e => decide (e.1 = k)) = true) :
    (c.map (fun e => if e.1 = k then (k, v, ts) else e)).find? (fun e => decide (e.1 = k))
      = some (k, v, ts) := by
  induction c with
  | nil => simp at hany
  | cons e rest ih =>
    rcases eq_or_ne e.1 k with he | he
    · simp [he]
    · rw [List.any_cons] at hany
      simp only [he, decide_eq_true_eq] at hany
      simp only [List.map_cons, he, if_false]
      rw [List.find?_cons_of_neg]
      · exact ih (by simpa using hany)
      · simpa using he

/-- A dict insert of a fresh key is found by a subsequent lookup: append case
of `putEntry`. -/
theorem find?_append_single {α : Type} (c : Cache α) (k : String) (v : α) (ts : ℤ)
    (hany : c.any (fun e => decide (e.1 = k)) = false) :
    (c ++ [(k, v, ts)]).find? (fun e => decide (e.1 = k)) = some (k, v, ts) := by
  induction c with
  | nil => simp
  | cons e rest ih =>
    rw [List.any_cons] at hany
    simp only [Bool.or_eq_false_iff] at hany
    rw [List.cons_append, List.find?_cons_of_neg]
    · exact ih hany.2
    · simp [hany.1]

/-- After `response_cache[key] = (v, ts)` the lookup of `key` yields `(v, ts)`. -/
theorem lookupEntry_putEntry_self {α : Type} (c : Cache α) (k : String) (v : α) (ts : ℤ) :
    lookupEntry (putEntry c k v ts) k = some (v, ts) := by
  unfold putEntry lookupEntry
  split
  · rename_i hany
    rw [find?_map_overwrite c k v ts hany]
    rfl
  · rename_i hany
    rw [Bool.not_eq_true] at hany
    rw [find?_append_single c k v ts hany]
    rfl

/-- Deleting a list of keys one by one is filtering out the entries carrying
those keys. -/
theorem foldl_delKey_eq {α : Type} (ks : List String) :
    ∀ c : Cache α, ks.foldl delKey c = c.filter (fun e => decide (e.1 ∉ ks)) := by
  induction ks with
  | nil => intro c; simp [List.foldl]
  | cons k ks ih =>
    intro c
    rw [List.foldl_cons, ih (delKey c k)]
    unfold delKey
    rw [List.filter_filter]
    apply List.filter_congr
    intro e _
    simp only [List.mem_cons, not_or, Bool.decide_and, decide_not]
    rw [Bool.and_comm]

/-- The kept and the removed entries of a filter pass partition the list. -/
theorem length_filter_not_add {β : Type} (p : β → Bool) (l : List β) :
    (l.filter (fun b => !(p b))).length + (l.filter p).length = l.length := by
  induction l with
  | nil => rfl
  | cons b l ih =>
    by_cases hb : p b = true
    · simp [List.filter_cons, hb, ← ih]; omega
    · rw [Bool.not_eq_true] at hb
      simp [List.filter_cons, hb, ← ih]; omega

/-- A lookup result that a filter pass keeps is still the lookup result after
the pass (order-preserving filtering cannot promote a later duplicate). -/
theorem lookupEntry_filter_of_keeps {α : Type} (c : Cache α) (p : String × α × ℤ → Bool)
    (k : String) (v : α) (ts : ℤ)
    (hfind : lookupEntry c k = some (v, ts)) (hkeep : p (k, v, ts) = true) :
    lookupEntry (c.filter p) k = some (v, ts) := by
  induction c with
  | nil => simp [lookupEntry] at hfind
  | cons e rest ih =>
    rcases eq_or_ne e.1 k with he | he
    · have hev : e = (k, v, ts) := by
        have : lookupEntry (e :: rest) k = some e.2 := by
          simp [lookupEntry, List.find?_cons_of_pos, he]
        rw [this] at hfind
        obtain ⟨e1, e2, e3⟩ := e
        simp only at he
        subst he
        simp only [Option.some.injEq] at hfind
        simp [hfind]
      subst hev
      rw [List.filter_cons_of_pos hkeep]
      simp [lookupEntry, List.find?_cons_of_pos]
    · have hrest : lookupEntry rest k = some (v, ts) := by
        simpa [lookupEntry, List.find?_cons_of_neg, he] using hfind
      by_cases hpe : p e = true
      · rw [List.filter_cons_of_pos hpe]
        simp only [lookupEntry] at ih ⊢
        rw [List.find?_cons_of_neg]
        · exact ih hrest
        · simp [he]
      · rw [Bool.not_eq_true] at hpe
        rw [List.filter_cons_of_neg (by simp [hpe])]
        exact ih hrest

/-- A successful lookup exhibits a stored entry. -/
theorem mem_of_lookupEntry {α : Type} (c : Cache α) (k : String) (v : α) (ts : ℤ)
    (hfind : lookupEntry c k = some (v, ts)) : (k, v, ts) ∈ c := by
  unfold lookupEntry at hfind
  obtain ⟨e, hfe, h2⟩ := Option.map_eq_some'.mp hfind
  have hm := List.mem_of_find?_eq_some hfe
  have hp := List.find?_some hfe
  obtain ⟨e1, e2, e3⟩ := e
  simp at hp h2
  obtain ⟨rfl, rfl⟩ := h2
  subst hp
  exact hm

/-- In a cache with no duplicate keys, two stored entries with the same key
are the same entry. -/
theorem entry_eq_of_nodup_keys {α : Type} (c : Cache α)
    (hnd : (c.map (fun e => e.1)).Nodup) {e1 e2 : String × α × ℤ}
    (h1 : e1 ∈ c) (h2 : e2 ∈ c) (hk : e1.1 = e2.1) : e1 = e2 :=
  List.inj_on_of_nodup_map hnd h1 h2 hk

/-- Evaluation of the cache-check block on a present key. -/
theorem cache_lookup_step_of_found {α : Type} (c : Cache α) (k : String) (v : α)
    (ts now : ℤ) (h : lookupEntry c k = some (v, ts)) :
    cache_lookup_step c k now = (if now - ts < CACHE_TTL then some v else none, c) := by
  unfold cache_lookup_step
  rw [h]

/-- Evaluation of the cache-check block on an absent key. -/
theorem cache_lookup_step_of_absent {α : Type} (c : Cache α) (k : String)
    (now : ℤ) (h : lookupEntry c k = none) :
    cache_lookup_step c k now = (none, c) := by
  unfold cache_lookup_step
  rw [h]

/-- A fresh cache hit short-circuits the `/api/respond` handler. -/
theorem respond_hit (h : PyHash) (c : Cache String) (text hist : String)
    (now : ℤ) (out : GenOutcome) (v : String) (t : ℤ)
    (hl : lookupEntry c (respond_cache_key h text hist) = some (v, t))
    (hfresh : now - t < CACHE_TTL) :
    respond h c text hist now out = (v, c, false) := by
  unfold respond
  rw [cache_lookup_step_of_found c _ v t now hl]
  simp [hfresh]

/-- On a cache miss with an empty generated text, `/api/respond` returns the
apology and stores nothing. -/
theorem respond_miss_text_empty (h : PyHash) (c : Cache String) (text hist : String)
    (now : ℤ) (s : String)
    (hm : (cache_lookup_step c (respond_cache_key h text hist) now).1 = none)
    (hs : s = "") :
    respond h c text hist now (GenOutcome.text s) = (FALLBACK_EMPTY_REPLY, c, true) := by
  unfold respond
  rw [hm]
  simp [hs]

/-- On a cache miss with a nonempty generated text, `/api/respond` stores the
text at the current time and returns it. -/
theorem respond_miss_text_store (h : PyHash) (c : Cache String) (text hist : String)
    (now : ℤ) (s : String)
    (hm : (cache_lookup_step c (respond_cache_key h text hist) now).1 = none)
    (hs : s ≠ "") :
    respond h c text hist now (GenOutcome.text s)
      = (s, putEntry c (respond_cache_key h text hist) s now, true) := by
  unfold respond
  rw [hm]
  simp [hs]

/-- On a cache miss with a raised compute, `/api/respond` returns the apology
and stores nothing. -/
theorem respond_miss_raised (h : PyHash) (c : Cache String) (text hist : String)
    (now : ℤ) (m : String)
    (hm : (cache_lookup_step c (respond_cache_key h text hist) now).1 = none) :
    respond h c text hist now (GenOutcome.raised m) = (FALLBACK_ERROR_REPLY, c, true) := by
  unfold respond
  rw [hm]

/-- A fresh cache hit short-circuits the `/api/tts` handler. -/
theorem tts_hit (h : PyHash) (c : Cache TTSPayload) (req : TTSRequest)
    (now : ℤ) (out : TTSOutcome) (v : TTSPayload) (t : ℤ)
    (hl : lookupEntry c (tts_cache_key h req) = some (v, t))
    (hfresh : now - t < CACHE_TTL) :
    text_to_speech h c req now out = (v, c, false) := by
  unfold text_to_speech
  rw [cache_lookup_step_of_found c _ v t now hl]
  simp [hfresh]

/-- On a cache miss with inline audio produced, `/api/tts` stores the success
payload at the current time and returns it. -/
theorem tts_miss_audio (h : PyHash) (c : Cache TTSPayload) (req : TTSRequest)
    (now : ℤ) (data mime : String)
    (hm : (cache_lookup_step c (tts_cache_key h req) now).1 = none) :
    text_to_speech h c req now (TTSOutcome.audio data mime)
      = (successPayload data mime,
          putEntry c (tts_cache_key h req) (successPayload data mime) now, true) := by
  unfold text_to_speech
  rw [hm]

/-- On a cache miss with no audio data in the response, `/api/tts` stores the
browser fallback at the current, unmodified time and returns it. -/
theorem tts_miss_noAudio (h : PyHash) (c : Cache TTSPayload) (req : TTSRequest)
    (now : ℤ)
    (hm : (cache_lookup_step c (tts_cache_key h req) now).1 = none) :
    text_to_speech h c req now TTSOutcome.noAudio
      = (browserFallbackPayload req.text,
          putEntry c (tts_cache_key h req) (browserFallbackPayload req.text) now, true) := by
  unfold text_to_speech
  rw [hm]

/-- On a cache miss with a raised compute, `/api/tts` stores the error
fallback with the backdated timestamp `now - CACHE_TTL + 30` and returns it. -/
theorem tts_miss_raised (h : PyHash) (c : Cache TTSPayload) (req : TTSRequest)
    (now : ℤ) (msg : String)
    (hm : (cache_lookup_step c (tts_cache_key h req) now).1 = none) :
    text_to_speech h c req now (TTSOutcome.raised msg)
      = (errorPayload req.text msg,
          putEntry c (tts_cache_key h req) (errorPayload req.text msg)
            (now - CACHE_TTL + 30), true) := by
  unfold text_to_speech
  rw [hm]

/-- A fixed realization of the string hash, used by the concrete witness
instantiations. -/
def hZero : PyHash := fun _ => ⟨0, by norm_num⟩

/-! Claim theorems. -/

/-- C1: For every key `k`, value `v`, and times `t0 ≤ t1`, if the cache holds
the entry `(v, t0)` for `k` and the read path runs at `t1`, it returns `v` as
a found-and-fresh hit exactly when `t1 - t0 < CACHE_TTL`; when
`CACHE_TTL ≤ t1 - t0` it reports not-found; and in both cases the read
deletes nothing: the cache coming out of the check is the one that went in,
with the entry still stored. -/
theorem claim_c1_get_freshness {α : Type} (c : Cache α) (k : String) (v : α)
    (t0 t1 : ℤ) (hheld : lookupEntry c k = some (v, t0)) (h01 : t0 ≤ t1) :
    ((cache_lookup_step c k t1).1 = some v ↔ t1 - t0 < CACHE_TTL)
    ∧ ((cache_lookup_step c k t1).1 = none ↔ CACHE_TTL ≤ t1 - t0)
    ∧ (cache_lookup_step c k t1).2 = c
    ∧ lookupEntry (cache_lookup_step c k t1).2 k = some (v, t0) := by
  rw [cache_lookup_step_of_found c k v t0 t1 hheld]
  refine ⟨?_, ?_, rfl, hheld⟩
  · by_cases hlt : t1 - t0 < CACHE_TTL <;> simp [hlt]
  · by_cases hlt : t1 - t0 < CACHE_TTL <;> simp [hlt] <;> omega

/-- Witness for C1 at a concrete input: a singleton cache entry inserted at
time 0 and read at time 100. -/
theorem claim_c1_get_freshness_witness :
    (lookupEntry ([("k", "v", (0 : ℤ))] : Cache String) "k" = some ("v", 0)
      ∧ (0 : ℤ) ≤ 100)
    ∧ (((cache_lookup_step ([("k", "v", (0 : ℤ))] : Cache String) "k" 100).1 = some "v"
          ↔ (100 : ℤ) - 0 < CACHE_TTL)
        ∧ (((cache_lookup_step ([("k", "v", (0 : ℤ))] : Cache String) "k" 100).1 = none
          ↔ CACHE_TTL ≤ (100 : ℤ) - 0))
        ∧ (cache_lookup_step ([("k", "v", (0 : ℤ))] : Cache String) "k" 100).2
            = [("k", "v", (0 : ℤ))]
        ∧ lookupEntry (cache_lookup_step ([("k", "v", (0 : ℤ))] : Cache String) "k" 100).2 "k"
            = some ("v", 0)) :=
  ⟨⟨by decide, by decide⟩,
    claim_c1_get_freshness [("k", "v", (0 : ℤ))] "k" "v" 0 100 (by decide) (by decide)⟩

/-- C4: The success freshness window of an entry stored by the success path at
time `t` is exactly `now - t < CACHE_TTL`, while the window of an entry stored
by the TTS error path at the same instant `t` (with its backdated timestamp
`t - CACHE_TTL + 30`) is exactly `now - t < 30`; at `t + 30` the success entry
is still returned while the error entry already reads as not-found, and
`30 < CACHE_TTL`: a cached error becomes invisible strictly before a cached
success of the same insertion time. -/
theorem claim_c4_error_ttl_shorter (k : String) (er succ : TTSPayload) (t : ℤ) :
    (∀ now : ℤ,
      (cache_lookup_step (putEntry ([] : Cache TTSPayload) k er (t - CACHE_TTL + 30)) k now).1
        = some er ↔ now - t < 30)
    ∧ (∀ now : ℤ,
      (cache_lookup_step (putEntry ([] : Cache TTSPayload) k succ t) k now).1
        = some succ ↔ now - t < CACHE_TTL)
    ∧ (cache_lookup_step (putEntry ([] : Cache TTSPayload) k succ t) k (t + 30)).1 = some succ
    ∧ (cache_lookup_step (putEntry ([] : Cache TTSPayload) k er (t - CACHE_TTL + 30)) k (t + 30)).1
        = none
    ∧ (30 : ℤ) < CACHE_TTL := by
  refine ⟨?_, ?_, ?_, ?_, by simp only [CACHE_TTL]; omega⟩
  · intro now
    rw [cache_lookup_step_of_found _ _ _ _ _ (lookupEntry_putEntry_self [] k er (t - CACHE_TTL + 30))]
    by_cases hc : now - (t - CACHE_TTL + 30) < CACHE_TTL <;>
      simp [hc] <;> simp only [CACHE_TTL] at hc ⊢ <;> omega
  · intro now
    rw [cache_lookup_step_of_found _ _ _ _ _ (lookupEntry_putEntry_self [] k succ t)]
    by_cases hc : now - t < CACHE_TTL <;> simp [hc]
  · rw [cache_lookup_step_of_found _ _ _ _ _ (lookupEntry_putEntry_self [] k succ t)]
    rw [if_pos (by simp only [CACHE_TTL]; omega)]
  · rw [cache_lookup_step_of_found _ _ _ _ _ (lookupEntry_putEntry_self [] k er (t - CACHE_TTL + 30))]
    rw [if_neg (by simp only [CACHE_TTL]; omega)]

/-- C9: At the exact TTL boundary the read path and the sweep disagree: an
entry of age exactly `CACHE_TTL` reads as not-found (freshness needs age
strictly below `CACHE_TTL`) yet the sweep does not remove it (deletion needs
age strictly above `CACHE_TTL`), so the entry survives the sweep while being
invisible to readers. -/
theorem claim_c9_boundary_entry_invisible_but_kept {α : Type} (c : Cache α)
    (k : String) (v : α) (t0 t1 : ℤ)
    (hnd : (c.map (fun e => e.1)).Nodup)
    (hheld : lookupEntry c k = some (v, t0))
    (hb : t1 - t0 = CACHE_TTL) :
    (cache_lookup_step c k t1).1 = none
    ∧ lookupEntry (optimize_cache_cleanup c t1).1 k = some (v, t0) := by
  constructor
  · rw [cache_lookup_step_of_found c k v t0 t1 hheld]
    simp only
    rw [if_neg (by omega)]
  · show lookupEntry
      (((c.filter (isExpired t1)).map (fun e => e.1)).foldl delKey c) k = some (v, t0)
    rw [foldl_delKey_eq]
    apply lookupEntry_filter_of_keeps c _ k v t0 hheld
    simp only [decide_eq_true_eq, List.mem_map]
    rintro ⟨e, hef, hek⟩
    have hec : e ∈ c := List.mem_of_mem_filter hef
    have hee : e = (k, v, t0) :=
      entry_eq_of_nodup_keys c hnd hec (mem_of_lookupEntry c k v t0 hheld) hek
    subst hee
    have hex := (List.mem_filter.mp hef).2
    simp only [isExpired, decide_eq_true_eq] at hex
    omega

/-- Witness for C9 at a concrete input: an entry inserted at time 1 and
examined at time 301, age exactly `CACHE_TTL`. -/
theorem claim_c9_boundary_witness :
    (([("k", "v", (1 : ℤ))] : Cache String).map (fun e => e.1)).Nodup
    ∧ lookupEntry ([("k", "v", (1 : ℤ))] : Cache String) "k" = some ("v", 1)
    ∧ (301 : ℤ) - 1 = CACHE_TTL
    ∧ (cache_lookup_step ([("k", "v", (1 : ℤ))] : Cache String) "k" 301).1 = none
    ∧ lookupEntry (optimize_cache_cleanup ([("k", "v", (1 : ℤ))] : Cache String) 301).1 "k"
        = some ("v", 1) :=
  ⟨by decide, by decide, by decide,
    claim_c9_boundary_entry_invisible_but_kept [("k", "v", (1 : ℤ))] "k" "v" 1 301
      (by decide) (by decide) (by decide)⟩

/-- C5 (amended): one sweep pass deletes exactly the entries whose age is
strictly greater than their TTL, leaves the remaining entries verbatim (so
`N - M` of the `N` survive when `M` are stale), and reports `M` in its
printed cleanup message; the Python function itself returns `None`, not `M`. -/
theorem claim_c5_sweep_removes_exactly_stale {α : Type} (c : Cache α) (now : ℤ)
    (hnd : (c.map (fun e => e.1)).Nodup) :
    (optimize_cache_cleanup c now).1 = c.filter (fun e => !(isExpired now e))
    ∧ (optimize_cache_cleanup c now).2.1 = (c.filter (isExpired now)).length
    ∧ (optimize_cache_cleanup c now).1.length + (c.filter (isExpired now)).length = c.length
    ∧ (optimize_cache_cleanup c now).2.2 = none := by
  have h1 : (optimize_cache_cleanup c now).1 = c.filter (fun e => !(isExpired now e)) := by
    show (((c.filter (isExpired now)).map (fun e => e.1)).foldl delKey c) = _
    rw [foldl_delKey_eq]
    apply List.filter_congr
    intro e he
    by_cases hex : isExpired now e = true
    · simp only [hex, Bool.not_true, decide_eq_false_iff_not, not_not]
      exact List.mem_map.mpr ⟨e, List.mem_filter.mpr ⟨he, hex⟩, rfl⟩
    · rw [Bool.not_eq_true] at hex
      simp only [hex, Bool.not_false, decide_eq_true_eq]
      intro hmem
      obtain ⟨e2, he2, hke⟩ := List.mem_map.mp hmem
      have hec : e2 ∈ c := List.mem_of_mem_filter he2
      have hee : e2 = e := entry_eq_of_nodup_keys c hnd hec he hke
      subst hee
      have hx := (List.mem_filter.mp he2).2
      rw [hex] at hx
      exact Bool.false_ne_true hx
  refine ⟨h1, ?_, ?_, rfl⟩
  · show ((c.filter (isExpired now)).map (fun e => e.1)).length = _
    rw [List.length_map]
  · rw [h1]
    exact length_filter_not_add (isExpired now) c

/-- Witness for C5 at a concrete input: three entries, of which exactly one is
stale at sweep time 301 (ages 301, 201, 300: only age 301 exceeds the TTL). -/
theorem claim_c5_sweep_witness :
    ((([("a", "x", (0 : ℤ)), ("b", "y", 100), ("c", "z", 1)] : Cache String).map
        (fun e => e.1)).Nodup)
    ∧ ((optimize_cache_cleanup
          ([("a", "x", (0 : ℤ)), ("b", "y", 100), ("c", "z", 1)] : Cache String) 301).1
        = ([("a", "x", (0 : ℤ)), ("b", "y", 100), ("c", "z", 1)] : Cache String).filter
            (fun e => !(isExpired 301 e))
      ∧ (optimize_cache_cleanup
          ([("a", "x", (0 : ℤ)), ("b", "y", 100), ("c", "z", 1)] : Cache String) 301).2.1
        = (([("a", "x", (0 : ℤ)), ("b", "y", 100), ("c", "z", 1)] : Cache String).filter
            (isExpired 301)).length
      ∧ (optimize_cache_cleanup
          ([("a", "x", (0 : ℤ)), ("b", "y", 100), ("c", "z", 1)] : Cache String) 301).1.length
          + (([("a", "x", (0 : ℤ)), ("b", "y", 100), ("c", "z", 1)] : Cache String).filter
              (isExpired 301)).length
        = ([("a", "x", (0 : ℤ)), ("b", "y", 100), ("c", "z", 1)] : Cache String).length
      ∧ (optimize_cache_cleanup
          ([("a", "x", (0 : ℤ)), ("b", "y", 100), ("c", "z", 1)] : Cache String) 301).2.2
        = none) :=
  ⟨by decide,
    claim_c5_sweep_removes_exactly_stale
      [("a", "x", (0 : ℤ)), ("b", "y", 100), ("c", "z", 1)] 301 (by decide)⟩

/-- C5 counterexample: at a cache holding one entry of age 301 at sweep time
(so `M = 1`), the sweep deletes the entry and prints the count 1, but the
function's return value is Python's `None`, not `M`: the claim's "returns M"
is false of the code, which only logs the count. -/
theorem claim_c5_counterexample :
    (optimize_cache_cleanup ([("k", "v", (0 : ℤ))] : Cache String) 301).1 = []
    ∧ (optimize_cache_cleanup ([("k", "v", (0 : ℤ))] : Cache String) 301).2.1 = 1
    ∧ (optimize_cache_cleanup ([("k", "v", (0 : ℤ))] : Cache String) 301).2.2 ≠ some 1 := by
  decide

/-- C7 (amended): the reaper loop is still running after a finite trace of
sweep iterations exactly when every iteration in the trace completed without
raising; the loop body has no exception handling, so the first sweep that
raises terminates the reaper. -/
theorem claim_c7_reaper_survives_iff_no_raise (tr : List SweepOutcome) :
    periodic_cache_cleanup_alive tr = true
      ↔ ∀ o ∈ tr, ∃ n, o = SweepOutcome.ok n := by
  induction tr with
  | nil => simp [periodic_cache_cleanup_alive]
  | cons o rest ih =>
    cases o with
    | ok n => simp [periodic_cache_cleanup_alive, ih]
    | raised m =>
      rw [show periodic_cache_cleanup_alive (SweepOutcome.raised m :: rest) = false from rfl]
      simp only [Bool.false_eq_true, false_iff]
      intro hall
      obtain ⟨n, hn⟩ := hall (SweepOutcome.raised m) (List.mem_cons_self _ _)
      exact SweepOutcome.noConfusion hn

/-- C7 counterexample: a single sweep iteration that raises (for example the
`RuntimeError` produced by a dict mutated during iteration) terminates the
reaper loop, contradicting the claim that the loop catches the error and
continues. -/
theorem claim_c7_counterexample :
    periodic_cache_cleanup_alive
        [SweepOutcome.raised "RuntimeError: dictionary changed size during iteration"]
      = false := rfl

/-- C2: Calling the cached endpoint twice with the same key inputs, while the
result the first call left in the cache is still within the success TTL
window, invokes the wrapped compute at most once: the second call does not
invoke compute (`.2.2 = false`), returns exactly what the first call
returned, and leaves the cache as the first call left it. -/
theorem claim_c2_no_recompute_within_ttl (h : PyHash) (c : Cache String)
    (text hist : String) (now1 now2 : ℤ) (out1 out2 : GenOutcome) (v : String) (t : ℤ)
    (h12 : now1 ≤ now2)
    (hstored : lookupEntry (respond h c text hist now1 out1).2.1
        (respond_cache_key h text hist) = some (v, t))
    (hfresh : now2 - t < CACHE_TTL) :
    (respond h (respond h c text hist now1 out1).2.1 text hist now2 out2).2.2 = false
    ∧ (respond h (respond h c text hist now1 out1).2.1 text hist now2 out2).1
        = (respond h c text hist now1 out1).1
    ∧ (respond h (respond h c text hist now1 out1).2.1 text hist now2 out2).2.1
        = (respond h c text hist now1 out1).2.1 := by
  have hsecond := respond_hit h (respond h c text hist now1 out1).2.1 text hist now2 out2
    v t hstored hfresh
  rw [hsecond]
  refine ⟨rfl, ?_, rfl⟩
  rcases hl : lookupEntry c (respond_cache_key h text hist) with _ | ⟨v0, t0⟩
  · have hm : (cache_lookup_step c (respond_cache_key h text hist) now1).1 = none := by
      rw [cache_lookup_step_of_absent c _ now1 hl]
    cases out1 with
    | text s =>
      by_cases hs : s = ""
      · rw [respond_miss_text_empty h c text hist now1 s hm hs] at hstored
        dsimp only at hstored
        rw [hl] at hstored
        exact Option.noConfusion hstored
      · rw [respond_miss_text_store h c text hist now1 s hm hs] at hstored ⊢
        dsimp only at hstored ⊢
        rw [lookupEntry_putEntry_self] at hstored
        simp only [Option.some.injEq, Prod.mk.injEq] at hstored
        obtain ⟨rfl, rfl⟩ := hstored
        rfl
    | raised m =>
      rw [respond_miss_raised h c text hist now1 m hm] at hstored
      dsimp only at hstored
      rw [hl] at hstored
      exact Option.noConfusion hstored
  · by_cases hfr : now1 - t0 < CACHE_TTL
    · have hfirst := respond_hit h c text hist now1 out1 v0 t0 hl hfr
      rw [hfirst] at hstored ⊢
      dsimp only at hstored ⊢
      rw [hl] at hstored
      simp only [Option.some.injEq, Prod.mk.injEq] at hstored
      obtain ⟨rfl, rfl⟩ := hstored
      rfl
    · have hm : (cache_lookup_step c (respond_cache_key h text hist) now1).1 = none := by
        rw [cache_lookup_step_of_found c _ v0 t0 now1 hl]
        simp [hfr]
      cases out1 with
      | text s =>
        by_cases hs : s = ""
        · rw [respond_miss_text_empty h c text hist now1 s hm hs] at hstored
          dsimp only at hstored
          rw [hl] at hstored
          simp only [Option.some.injEq, Prod.mk.injEq] at hstored
          obtain ⟨rfl, rfl⟩ := hstored
          simp only [CACHE_TTL] at hfr hfresh
          omega
        · rw [respond_miss_text_store h c text hist now1 s hm hs] at hstored ⊢
          dsimp only at hstored ⊢
          rw [lookupEntry_putEntry_self] at hstored
          simp only [Option.some.injEq, Prod.mk.injEq] at hstored
          obtain ⟨rfl, rfl⟩ := hstored
          rfl
      | raised m =>
        rw [respond_miss_raised h c text hist now1 m hm] at hstored
        dsimp only at hstored
        rw [hl] at hstored
        simp only [Option.some.injEq, Prod.mk.injEq] at hstored
        obtain ⟨rfl, rfl⟩ := hstored
        simp only [CACHE_TTL] at hfr hfresh
        omega

/-- Witness for C2 at a concrete input: a first call at time 0 computes and
stores "Hello"; a second call at time 1 with a different outcome available
does not invoke compute, returns "Hello", and leaves the cache unchanged. -/
theorem claim_c2_no_recompute_witness :
    ((0 : ℤ) ≤ 1
      ∧ lookupEntry (respond hZero [] "hi" "[]" 0 (GenOutcome.text "Hello")).2.1
          (respond_cache_key hZero "hi" "[]") = some ("Hello", 0)
      ∧ (1 : ℤ) - 0 < CACHE_TTL)
    ∧ ((respond hZero (respond hZero [] "hi" "[]" 0 (GenOutcome.text "Hello")).2.1
          "hi" "[]" 1 (GenOutcome.raised "boom")).2.2 = false
      ∧ (respond hZero (respond hZero [] "hi" "[]" 0 (GenOutcome.text "Hello")).2.1
          "hi" "[]" 1 (GenOutcome.raised "boom")).1
        = (respond hZero [] "hi" "[]" 0 (GenOutcome.text "Hello")).1
      ∧ (respond hZero (respond hZero [] "hi" "[]" 0 (GenOutcome.text "Hello")).2.1
          "hi" "[]" 1 (GenOutcome.raised "boom")).2.1
        = (respond hZero [] "hi" "[]" 0 (GenOutcome.text "Hello")).2.1) :=
  ⟨⟨by decide, by decide, by decide⟩,
    claim_c2_no_recompute_within_ttl hZero [] "hi" "[]" 0 1
      (GenOutcome.text "Hello") (GenOutcome.raised "boom") "Hello" 0
      (by decide) (by decide) (by decide)⟩

/-- C3: If the wrapped TTS compute raises on a cache miss, the handler returns
the browser-TTS error fallback instead of propagating the exception, stores
that fallback under the key with the backdated timestamp
`now - CACHE_TTL + 30` (the error category: an effective 30-second window),
and any later call for the same key within 30 seconds returns the same cached
fallback without invoking compute again. -/
theorem claim_c3_error_fallback_cached (h : PyHash) (c : Cache TTSPayload)
    (req : TTSRequest) (now1 now2 : ℤ) (msg : String) (out2 : TTSOutcome)
    (hmiss : (cache_lookup_step c (tts_cache_key h req) now1).1 = none)
    (h12 : now1 ≤ now2) (hwin : now2 - now1 < 30) :
    (text_to_speech h c req now1 (TTSOutcome.raised msg)).1 = errorPayload req.text msg
    ∧ lookupEntry (text_to_speech h c req now1 (TTSOutcome.raised msg)).2.1
        (tts_cache_key h req) = some (errorPayload req.text msg, now1 - CACHE_TTL + 30)
    ∧ (text_to_speech h (text_to_speech h c req now1 (TTSOutcome.raised msg)).2.1
        req now2 out2).2.2 = false
    ∧ (text_to_speech h (text_to_speech h c req now1 (TTSOutcome.raised msg)).2.1
        req now2 out2).1 = errorPayload req.text msg := by
  rw [tts_miss_raised h c req now1 msg hmiss]
  dsimp only
  have hstored := lookupEntry_putEntry_self c (tts_cache_key h req)
    (errorPayload req.text msg) (now1 - CACHE_TTL + 30)
  have hfr : now2 - (now1 - CACHE_TTL + 30) < CACHE_TTL := by
    simp only [CACHE_TTL]
    omega
  have hsecond := tts_hit h
    (putEntry c (tts_cache_key h req) (errorPayload req.text msg) (now1 - CACHE_TTL + 30))
    req now2 out2 (errorPayload req.text msg) (now1 - CACHE_TTL + 30) hstored hfr
  rw [hsecond]
  exact ⟨rfl, hstored, rfl, rfl⟩

/-- Witness for C3 at a concrete input: an empty cache misses at time 0, the
compute raises, and a second call at time 10 (within the 30-second window)
returns the cached fallback without computing. -/
theorem claim_c3_error_fallback_witness :
    ((cache_lookup_step ([] : Cache TTSPayload)
        (tts_cache_key hZero ⟨"hi", "Kore", "en-US", 1⟩) 0).1 = none
      ∧ (0 : ℤ) ≤ 10 ∧ (10 : ℤ) - 0 < 30)
    ∧ ((text_to_speech hZero [] ⟨"hi", "Kore", "en-US", 1⟩ 0 (TTSOutcome.raised "boom")).1
        = errorPayload "hi" "boom"
      ∧ lookupEntry
          (text_to_speech hZero [] ⟨"hi", "Kore", "en-US", 1⟩ 0 (TTSOutcome.raised "boom")).2.1
          (tts_cache_key hZero ⟨"hi", "Kore", "en-US", 1⟩)
        = some (errorPayload "hi" "boom", 0 - CACHE_TTL + 30)
      ∧ (text_to_speech hZero
          (text_to_speech hZero [] ⟨"hi", "Kore", "en-US", 1⟩ 0 (TTSOutcome.raised "boom")).2.1
          ⟨"hi", "Kore", "en-US", 1⟩ 10 (TTSOutcome.audio "QUJD" "audio/wav")).2.2 = false
      ∧ (text_to_speech hZero
          (text_to_speech hZero [] ⟨"hi", "Kore", "en-US", 1⟩ 0 (TTSOutcome.raised "boom")).2.1
          ⟨"hi", "Kore", "en-US", 1⟩ 10 (TTSOutcome.audio "QUJD" "audio/wav")).1
        = errorPayload "hi" "boom") :=
  ⟨⟨by decide, by decide, by decide⟩,
    claim_c3_error_fallback_cached hZero [] ⟨"hi", "Kore", "en-US", 1⟩ 0 10 "boom"
      (TTSOutcome.audio "QUJD" "audio/wav") (by decide) (by decide) (by decide)⟩

/-- Cancellation of the voice segment inside a concatenated cache key: equal
keys with equal surrounding segments force equal voice names. -/
theorem key_voice_cancel (P Y v1 v2 : String)
    (h : ((P ++ v1) ++ "_") ++ Y = ((P ++ v2) ++ "_") ++ Y) : v1 = v2 := by
  have hd := congrArg String.data h
  simp only [String.data_append] at hd
  have h1 := List.append_cancel_right hd
  have h2 := List.append_cancel_right h1
  have h3 := List.append_cancel_left h2
  exact String.ext h3

/-- C6 (amended): the TTS key derivation is deterministic: requests with the
same text, voice name, and speaking rate map to the same key (in particular
the key ignores `language_code`, which the handler also never uses), and
requests with the same text and rate but different voice names map to
different keys.  Full separation fails for the text: the text enters the key
only through the finite-range built-in hash, so under every realization of
that hash some two distinct texts share a key. -/
theorem claim_c6_key_derivation :
    (∀ (h : PyHash) (r1 r2 : TTSRequest), r1.text = r2.text → r1.voice_name = r2.voice_name →
        r1.speaking_rate = r2.speaking_rate → tts_cache_key h r1 = tts_cache_key h r2)
    ∧ (∀ (h : PyHash) (r1 r2 : TTSRequest), r1.text = r2.text →
        r1.speaking_rate = r2.speaking_rate → r1.voice_name ≠ r2.voice_name →
        tts_cache_key h r1 ≠ tts_cache_key h r2)
    ∧ (∀ h : PyHash, ∃ t1 t2 : String, t1 ≠ t2 ∧
        tts_cache_key h ⟨t1, "Kore", "en-US", 1⟩ = tts_cache_key h ⟨t2, "Kore", "en-US", 1⟩) := by
  refine ⟨?_, ?_, ?_⟩
  · intro h r1 r2 ht hv hr
    unfold tts_cache_key
    rw [ht, hv, hr]
  · intro h r1 r2 ht hr hv hkey
    apply hv
    unfold tts_cache_key at hkey
    rw [ht, hr] at hkey
    exact key_voice_cancel _ _ _ _ hkey
  · intro h
    obtain ⟨t1, t2, hne, heq⟩ := Finite.exists_ne_map_eq_of_infinite h
    refine ⟨t1, t2, hne, ?_⟩
    unfold tts_cache_key
    dsimp only
    rw [heq]

/-- C6 counterexample: no realization of the finite-range text hash makes the
key derivation injective in the request text, so the claim that any two
requests differing in an output-affecting parameter (here: the text) map to
different keys is false: infinitely many texts land in a 64-bit hash range,
hence some two distinct texts collide to the same cache key. -/
theorem claim_c6_counterexample :
    ¬ ∃ h : PyHash, ∀ t1 t2 : String,
        tts_cache_key h ⟨t1, "Kore", "en-US", 1⟩ = tts_cache_key h ⟨t2, "Kore", "en-US", 1⟩
          → t1 = t2 := by
  rintro ⟨h, hsep⟩
  obtain ⟨t1, t2, hne, heq⟩ := Finite.exists_ne_map_eq_of_infinite h
  apply hne
  apply hsep
  unfold tts_cache_key
  dsimp only
  rw [heq]

/-- C10: When the wrapped TTS compute completes without audio data, the
`use_browser_tts` fallback is stored with the current, unmodified timestamp
`now` — the success category — so it stays fresh for the full `CACHE_TTL`
window (`d < CACHE_TTL`); only the exception path backdates the timestamp to
`now - CACHE_TTL + 30`, obtaining the 30-second window (`d < 30`). -/
theorem claim_c10_no_audio_fallback_success_ttl (h : PyHash) (c : Cache TTSPayload)
    (req : TTSRequest) (now : ℤ) (msg : String)
    (hmiss : (cache_lookup_step c (tts_cache_key h req) now).1 = none) :
    lookupEntry (text_to_speech h c req now TTSOutcome.noAudio).2.1 (tts_cache_key h req)
        = some (browserFallbackPayload req.text, now)
    ∧ (∀ d : ℤ, (cache_lookup_step (text_to_speech h c req now TTSOutcome.noAudio).2.1
          (tts_cache_key h req) (now + d)).1 = some (browserFallbackPayload req.text)
        ↔ d < CACHE_TTL)
    ∧ lookupEntry (text_to_speech h c req now (TTSOutcome.raised msg)).2.1 (tts_cache_key h req)
        = some (errorPayload req.text msg, now - CACHE_TTL + 30)
    ∧ (∀ d : ℤ, (cache_lookup_step (text_to_speech h c req now (TTSOutcome.raised msg)).2.1
          (tts_cache_key h req) (now + d)).1 = some (errorPayload req.text msg)
        ↔ d < 30) := by
  rw [tts_miss_noAudio h c req now hmiss, tts_miss_raised h c req now msg hmiss]
  dsimp only
  have hs1 := lookupEntry_putEntry_self c (tts_cache_key h req)
    (browserFallbackPayload req.text) now
  have hs2 := lookupEntry_putEntry_self c (tts_cache_key h req)
    (errorPayload req.text msg) (now - CACHE_TTL + 30)
  refine ⟨hs1, ?_, hs2, ?_⟩
  · intro d
    rw [cache_lookup_step_of_found _ _ _ _ _ hs1]
    by_cases hd : now + d - now < CACHE_TTL
    · rw [if_pos hd]
      exact iff_of_true rfl (by simp only [CACHE_TTL] at hd ⊢; omega)
    · rw [if_neg hd]
      exact iff_of_false (by simp) (by simp only [CACHE_TTL] at hd ⊢; omega)
  · intro d
    rw [cache_lookup_step_of_found _ _ _ _ _ hs2]
    by_cases hd : now + d - (now - CACHE_TTL + 30) < CACHE_TTL
    · rw [if_pos hd]
      exact iff_of_true rfl (by simp only [CACHE_TTL] at hd ⊢; omega)
    · rw [if_neg hd]
      exact iff_of_false (by simp) (by simp only [CACHE_TTL] at hd ⊢; omega)

/-- Witness for C10 at a concrete input: the empty cache misses at time 5 and
the no-audio and exception paths of the handler are compared. -/
theorem claim_c10_no_audio_fallback_witness :
    ((cache_lookup_step ([] : Cache TTSPayload)
        (tts_cache_key hZero ⟨"hi", "Kore", "en-US", 1⟩) 5).1 = none)
    ∧ (lookupEntry
          (text_to_speech hZero [] ⟨"hi", "Kore", "en-US", 1⟩ 5 TTSOutcome.noAudio).2.1
          (tts_cache_key hZero ⟨"hi", "Kore", "en-US", 1⟩)
        = some (browserFallbackPayload "hi", 5)
      ∧ (∀ d : ℤ, (cache_lookup_step
            (text_to_speech hZero [] ⟨"hi", "Kore", "en-US", 1⟩ 5 TTSOutcome.noAudio).2.1
            (tts_cache_key hZero ⟨"hi", "Kore", "en-US", 1⟩) (5 + d)).1
          = some (browserFallbackPayload "hi") ↔ d < CACHE_TTL)
      ∧ lookupEntry
          (text_to_speech hZero [] ⟨"hi", "Kore", "en-US", 1⟩ 5 (TTSOutcome.raised "boom")).2.1
          (tts_cache_key hZero ⟨"hi", "Kore", "en-US", 1⟩)
        = some (errorPayload "hi" "boom", 5 - CACHE_TTL + 30)
      ∧ (∀ d : ℤ, (cache_lookup_step
            (text_to_speech hZero [] ⟨"hi", "Kore", "en-US", 1⟩ 5 (TTSOutcome.raised "boom")).2.1
            (tts_cache_key hZero ⟨"hi", "Kore", "en-US", 1⟩) (5 + d)).1
          = some (errorPayload "hi" "boom") ↔ d < 30)) :=
  ⟨by decide,
    claim_c10_no_audio_fallback_success_ttl hZero [] ⟨"hi", "Kore", "en-US", 1⟩ 5 "boom"
      (by decide)⟩

end Eikaiwa
